import Mathlib

/-!
# QueueMincer — shallow embedding and verification

Shallow embedding of the QueueMincer storage-abstraction core:
the item validator and queue operations of `src/queue/queue-manager.ts`
(current draft, the one delegating to the loader when `inMemory` is
false), the loader models of `src/loaders/json-loader.ts`,
`src/loaders/csv-loader.ts`, `src/loaders/googlesheet-loader.ts` and the
memory loader, together with theorems settling the specification claims.

JavaScript runtime values are modelled by `JValue`; plain objects are
association lists of fields (JS objects have no duplicate keys and keep
insertion order).  JS numbers are modelled by `Rat` (exact rationals; the
claims under study do not depend on binary floating-point rounding).
-/

/-- A JavaScript runtime value as manipulated by QueueMincer. -/
inductive JValue where
  | vNull : JValue
  | vBool : Bool → JValue
  | vNum : Rat → JValue
  | vStr : String → JValue
  | vArr : List JValue → JValue
  | vObj : List (String × JValue) → JValue
deriving Repr

namespace JValue

mutual

/-- Structural equality test on `JValue` (deep value equality). -/
def beqVal : JValue → JValue → Bool
  | vNull, vNull => true
  | vBool a, vBool b => a == b
  | vNum a, vNum b => a == b
  | vStr a, vStr b => a == b
  | vArr a, vArr b => beqList a b
  | vObj a, vObj b => beqFields a b
  | _, _ => false

/-- Elementwise equality test on lists of values. -/
def beqList : List JValue → List JValue → Bool
  | [], [] => true
  | a :: as_, b :: bs => beqVal a b && beqList as_ bs
  | _, _ => false

/-- Elementwise equality test on field lists. -/
def beqFields : List (String × JValue) → List (String × JValue) → Bool
  | [], [] => true
  | (k, a) :: as_, (l, b) :: bs => k == l && beqVal a b && beqFields as_ bs
  | _, _ => false

end

mutual

theorem beqVal_iff : ∀ a b : JValue, beqVal a b = true ↔ a = b
  | vNull, b => by cases b <;> simp [beqVal]
  | vBool a, b => by cases b <;> simp [beqVal]
  | vNum a, b => by cases b <;> simp [beqVal]
  | vStr a, b => by cases b <;> simp [beqVal]
  | vArr a, b => by
      cases b <;> simp [beqVal]
      exact beqList_iff a _
  | vObj a, b => by
      cases b <;> simp [beqVal]
      exact beqFields_iff a _

theorem beqList_iff : ∀ a b : List JValue, beqList a b = true ↔ a = b
  | [], b => by cases b <;> simp [beqList]
  | x :: xs, b => by
      cases b with
      | nil => simp [beqList]
      | cons y ys =>
        simp only [beqList, Bool.and_eq_true, List.cons.injEq]
        exact and_congr (beqVal_iff x y) (beqList_iff xs ys)

theorem beqFields_iff : ∀ a b : List (String × JValue), beqFields a b = true ↔ a = b
  | [], b => by cases b <;> simp [beqFields]
  | (k, x) :: xs, b => by
      cases b with
      | nil => simp [beqFields]
      | cons p ys =>
        obtain ⟨l, y⟩ := p
        simp only [beqFields, Bool.and_eq_true, List.cons.injEq, Prod.mk.injEq, beq_iff_eq]
        rw [beqVal_iff x y, beqFields_iff xs ys, and_assoc]

end

instance : DecidableEq JValue := fun a b =>
  decidable_of_iff (beqVal a b = true) (beqVal_iff a b)

/-- The JS `typeof` operator restricted to the values of `JValue`
(`typeof null` is `"object"`, and so is `typeof` of any array). -/
def jsTypeof : JValue → String
  | vNull => "object"
  | vBool _ => "boolean"
  | vNum _ => "number"
  | vStr _ => "string"
  | vArr _ => "object"
  | vObj _ => "object"

/-- `Array.isArray`. -/
def isArray : JValue → Bool
  | vArr _ => true
  | _ => false

/-- `value === null`. -/
def isNull : JValue → Bool
  | vNull => true
  | _ => false

/-- JS truthiness: `false`, `0`, `""` and `null` are falsy
(`undefined` and `NaN` are outside the model). -/
def isFalsy : JValue → Bool
  | vNull => true
  | vBool b => !b
  | vNum q => q == 0
  | vStr s => s == ""
  | _ => false

end JValue

open JValue

/-- Field lookup on a JS object's field list (`item[key]`); JS objects
have no duplicate keys, so first match is the value of the property. -/
def jsLookup (k : String) (fields : List (String × JValue)) : Option JValue :=
  (fields.find? (fun p => p.1 == k)).map (·.2)

/-- `key in item` together with the subsequent `item[key]` access, for an
arbitrary value: own-property lookup on plain objects, absent otherwise. -/
def jsHasGet : JValue → String → Option JValue
  | vObj fields, k => jsLookup k fields
  | _, _ => none

/-- ASCII lowercasing of one character, as `String.prototype.toLowerCase`
acts on the ASCII range (the kind names and boolean literals under study
are ASCII). -/
def lowerChar (c : Char) : Char :=
  if 65 ≤ c.toNat ∧ c.toNat ≤ 90 then Char.ofNat (c.toNat + 32) else c

/-- `String.prototype.toLowerCase` (ASCII model). -/
def jsToLower (s : String) : String :=
  ⟨s.data.map lowerChar⟩

/-- A declared item template: field name to declared kind name
(`Record<string, string>`). -/
abbrev TemplateT := List (String × String)

/-- The per-field kind check of `DefaultQueueManager.validateItem`
(`switch (type.toLowerCase())`): an unrecognized declared kind name is
treated as valid. -/
def checkKind (ty : String) (value : JValue) : Bool :=
  match jsToLower ty with
  | "string" => jsTypeof value == "string"
  | "number" => jsTypeof value == "number"
  | "boolean" => jsTypeof value == "boolean"
  | "object" => jsTypeof value == "object" && !isNull value
  | "array" => isArray value
  | _ => true

/-- `DefaultQueueManager.validateItem`: no template means every item is
valid; otherwise the item must be a non-null `typeof`-object and every
declared field must be present with a matching kind. -/
def validateItem (tmpl : Option TemplateT) (item : JValue) : Bool :=
  match tmpl with
  | none => true
  | some t =>
    if jsTypeof item != "object" || isNull item then false
    else
      t.all fun p =>
        match jsHasGet item p.1 with
        | none => false
        | some value => checkKind p.2 value

example : validateItem (some [("task", "string")]) (vObj [("task", vStr "x")]) = true := by decide
example : validateItem (some [("task", "string"), ("done", "boolean")])
    (vObj [("task", vStr "x")]) = false := by decide
example : validateItem none (vNum 3) = true := by decide
example : validateItem (some []) (vNum 3) = false := by decide
example : validateItem (some [("a", "weird")]) (vObj [("a", vNull)]) = true := by decide

/-- The validator clause as the specification words it (§4.3): the runtime
kind of the field's value must match the declared kind, where `object`
requires a non-null structured value (a plain object or an array, both of
JS runtime kind "object"), `array` requires a sequence value, and an
unrecognized declared kind name is always satisfied. -/
def specKindMatches (declared : String) (v : JValue) : Prop :=
  (jsToLower declared = "string" → ∃ s, v = vStr s) ∧
  (jsToLower declared = "number" → ∃ q, v = vNum q) ∧
  (jsToLower declared = "boolean" → ∃ b, v = vBool b) ∧
  (jsToLower declared = "object" → (∃ fs, v = vObj fs) ∨ (∃ xs, v = vArr xs)) ∧
  (jsToLower declared = "array" → ∃ xs, v = vArr xs)

theorem checkKind_iff_specKindMatches (ty : String) (v : JValue) :
    checkKind ty v = true ↔ specKindMatches ty v := by
  unfold checkKind specKindMatches
  split
  all_goals rename_i heq
  all_goals simp only [heq]
  all_goals cases v <;> simp [jsTypeof, isArray, isNull]
  all_goals simp_all

theorem validateItem_obj_eq_all (t : TemplateT) (fields : List (String × JValue)) :
    validateItem (some t) (vObj fields) =
      t.all fun p =>
        match jsLookup p.1 fields with
        | none => false
        | some value => checkKind p.2 value := by
  rfl

/-- C2: with a non-`none` template, `validateItem` accepts an item (a
structured record) exactly when every declared field is present with a
runtime kind matching the declared kind; the result depends only on the
declared fields (extra fields are never inspected); with a `none`
template every value is valid. -/
theorem validateItem_spec_C2 :
    (∀ (t : TemplateT) (fields : List (String × JValue)),
      validateItem (some t) (vObj fields) = true ↔
        ∀ p ∈ t, ∃ v, jsLookup p.1 fields = some v ∧ specKindMatches p.2 v) ∧
    (∀ (t : TemplateT) (fields fields' : List (String × JValue)),
      (∀ k ∈ t.map Prod.fst, jsLookup k fields = jsLookup k fields') →
        (validateItem (some t) (vObj fields) = validateItem (some t) (vObj fields'))) ∧
    (∀ item : JValue, validateItem none item = true) := by
  refine ⟨?_, ?_, fun item => rfl⟩
  · intro t fields
    rw [validateItem_obj_eq_all, List.all_eq_true]
    refine forall_congr' fun p => forall_congr' fun _ => ?_
    cases h : jsLookup p.1 fields with
    | none => simp [h]
    | some v => simp [h, checkKind_iff_specKindMatches]
  · intro t fields fields'
    simp only [validateItem_obj_eq_all]
    induction t with
    | nil => intro _; rfl
    | cons p ps ih =>
      intro hagree
      have hk : jsLookup p.1 fields = jsLookup p.1 fields' := hagree p.1 (by simp)
      have ht := ih fun k hk2 => hagree k (by simp [hk2])
      simp only [List.all_cons, hk, ht]

/-- C9: with any non-`none` template in effect (even an empty one),
`validateItem` rejects every value that is not a non-null object: `null`,
booleans, numbers and strings are all invalid. -/
theorem validateItem_rejects_nonobjects_C9 :
    ∀ t : TemplateT,
      validateItem (some t) vNull = false ∧
      (∀ b, validateItem (some t) (vBool b) = false) ∧
      (∀ q, validateItem (some t) (vNum q) = false) ∧
      (∀ s, validateItem (some t) (vStr s) = false) :=
  fun _ => ⟨rfl, fun _ => rfl, fun _ => rfl, fun _ => rfl⟩

/-! ## Queue Manager (src/queue/queue-manager.ts, current draft)

The manager delegates to a loader.  A loader is modelled as a record of
state-passing operations over a backing-store state `σ` (its non-inMemory
behavior; fallible operations return `Except`).  `saveItems` is the
whole-store rewrite and never fails in the store model. -/

/-- The Loader contract (`QueueLoader`) as used by the Queue Manager. -/
structure LoaderOps (σ : Type) where
  getItemSchema : σ → Option TemplateT
  getItems : σ → Except String (List JValue × σ)
  saveItems : List JValue → σ → σ
  addItemFront : JValue → σ → Except String σ
  addItemBack : JValue → σ → Except String σ
  removeItemFront : σ → Except String (Option JValue × σ)
  removeItemBack : σ → Except String (Option JValue × σ)
  hasTemplate : String → σ → Bool
  loadTemplate : String → σ → Except String (List JValue × σ)

/-- Queue Manager state: the in-memory array and the established item
template (`DefaultQueueManager.items` / `itemTemplate`). -/
structure MgrState where
  items : List JValue
  itemTemplate : Option TemplateT

/-- Models `expr || null` applied to a just-removed element: a falsy
element is replaced by `null` (returned as `none`). -/
def jsOrNull (v : JValue) : Option JValue :=
  if isFalsy v then none else some v

/-- `DefaultQueueManager.initialize`: establish the template from the
loader's schema or the configured one (JS `||` chain), and in in-memory
mode populate `items` from `loader.getItems()`. -/
def mgrInitialize {σ} (L : LoaderOps σ) (inMemory : Bool)
    (cfgTemplate : Option TemplateT) (s : σ) : Except String (MgrState × σ) :=
  let tmpl := match L.getItemSchema s with
    | some t => some t
    | none => cfgTemplate
  if inMemory then
    match L.getItems s with
    | .ok (xs, s') => .ok ({ items := xs, itemTemplate := tmpl }, s')
    | .error e => .error e
  else .ok ({ items := [], itemTemplate := tmpl }, s)

/-- `DefaultQueueManager.getFront`: in-memory `items.shift() || null`,
otherwise delegate to `loader.removeItemFront()`. -/
def mgrGetFront {σ} (L : LoaderOps σ) (inMemory : Bool) (st : MgrState) (s : σ) :
    Except String (Option JValue × MgrState × σ) :=
  if inMemory then
    match st.items with
    | [] => .ok (none, st, s)
    | x :: rest => .ok (jsOrNull x, { st with items := rest }, s)
  else
    match L.removeItemFront s with
    | .ok (r, s') => .ok (r, st, s')
    | .error e => .error e

/-- `DefaultQueueManager.getBack`: in-memory `items.pop() || null`,
otherwise delegate to `loader.removeItemBack()`. -/
def mgrGetBack {σ} (L : LoaderOps σ) (inMemory : Bool) (st : MgrState) (s : σ) :
    Except String (Option JValue × MgrState × σ) :=
  if inMemory then
    match st.items.getLast? with
    | none => .ok (none, st, s)
    | some x => .ok (jsOrNull x, { st with items := st.items.dropLast }, s)
  else
    match L.removeItemBack s with
    | .ok (r, s') => .ok (r, st, s')
    | .error e => .error e

/-- `DefaultQueueManager.pushFront`: validate first (throwing leaves all
state untouched), then `items.unshift` in-memory or
`loader.addItemFront`. -/
def mgrPushFront {σ} (L : LoaderOps σ) (inMemory : Bool) (st : MgrState) (s : σ)
    (item : JValue) : Except String (MgrState × σ) :=
  if validateItem st.itemTemplate item then
    if inMemory then .ok ({ st with items := item :: st.items }, s)
    else
      match L.addItemFront item s with
      | .ok s' => .ok (st, s')
      | .error e => .error e
  else .error "Item does not match the required schema"

/-- `DefaultQueueManager.pushBack`: validate first, then `items.push`
in-memory or `loader.addItemBack`. -/
def mgrPushBack {σ} (L : LoaderOps σ) (inMemory : Bool) (st : MgrState) (s : σ)
    (item : JValue) : Except String (MgrState × σ) :=
  if validateItem st.itemTemplate item then
    if inMemory then .ok ({ st with items := st.items ++ [item] }, s)
    else
      match L.addItemBack item s with
      | .ok s' => .ok (st, s')
      | .error e => .error e
  else .error "Item does not match the required schema"

/-- `DefaultQueueManager.replaceFromTemplate`. -/
def mgrReplaceFromTemplate {σ} (L : LoaderOps σ) (inMemory : Bool) (st : MgrState)
    (s : σ) (tid : String) : Except String (MgrState × σ) :=
  if L.hasTemplate tid s then
    match L.loadTemplate tid s with
    | .ok (newItems, s₁) =>
      if inMemory then .ok ({ st with items := newItems }, s₁)
      else .ok (st, L.saveItems newItems s₁)
    | .error e => .error e
  else .error ("Template " ++ tid ++ " not found")

/-- `DefaultQueueManager.addFrontFromTemplate`: in direct mode it loads
the template, reads "current" items back via `loader.getItems()` and
saves `newItems ++ current`. -/
def mgrAddFrontFromTemplate {σ} (L : LoaderOps σ) (inMemory : Bool) (st : MgrState)
    (s : σ) (tid : String) : Except String (MgrState × σ) :=
  if L.hasTemplate tid s then
    match L.loadTemplate tid s with
    | .ok (newItems, s₁) =>
      if inMemory then .ok ({ st with items := newItems ++ st.items }, s₁)
      else
        match L.getItems s₁ with
        | .ok (cur, s₂) => .ok (st, L.saveItems (newItems ++ cur) s₂)
        | .error e => .error e
    | .error e => .error e
  else .error ("Template " ++ tid ++ " not found")

/-- `DefaultQueueManager.addBackFromTemplate`. -/
def mgrAddBackFromTemplate {σ} (L : LoaderOps σ) (inMemory : Bool) (st : MgrState)
    (s : σ) (tid : String) : Except String (MgrState × σ) :=
  if L.hasTemplate tid s then
    match L.loadTemplate tid s with
    | .ok (newItems, s₁) =>
      if inMemory then .ok ({ st with items := st.items ++ newItems }, s₁)
      else
        match L.getItems s₁ with
        | .ok (cur, s₂) => .ok (st, L.saveItems (cur ++ newItems) s₂)
        | .error e => .error e
    | .error e => .error e
  else .error ("Template " ++ tid ++ " not found")

/-! ## Memory loader (src/loaders/memory-loader.ts) -/

/-- `MemoryLoader` over its internal item array (constructed with
`config.put = true`; its `getItemSchema` returns the configured template). -/
def memOps (cfgT : Option TemplateT) : LoaderOps (List JValue) where
  getItemSchema := fun _ => cfgT
  getItems := fun s => .ok (s, s)
  saveItems := fun xs _ => xs
  addItemFront := fun x s => .ok (x :: s)
  addItemBack := fun x s => .ok (s ++ [x])
  removeItemFront := fun s =>
    match s with
    | [] => .ok (none, [])
    | x :: rest => .ok (jsOrNull x, rest)
  removeItemBack := fun s =>
    match s.getLast? with
    | none => .ok (none, s)
    | some x => .ok (jsOrNull x, s.dropLast)
  hasTemplate := fun _ _ => true
  loadTemplate := fun _ _ => .ok ([], [])

/-! ## The mutating operations of claim C1 and their fold semantics -/

/-- One mutating queue call: `getFront`, `getBack`, `pushFront` or
`pushBack`. -/
inductive QOp where
  | opGetFront : QOp
  | opGetBack : QOp
  | opPushFront (item : JValue) : QOp
  | opPushBack (item : JValue) : QOp

/-- The deterministic fold the specification describes: the pure effect
of one successful mutating call on the queue's contents. -/
def cachedStep (l : List JValue) : QOp → List JValue
  | .opGetFront => l.tail
  | .opGetBack => l.dropLast
  | .opPushFront x => x :: l
  | .opPushBack x => l ++ [x]

/-- An operation is successful when, for a push, the item passes
validation (gets always succeed in cached mode). -/
def opValid (tmpl : Option TemplateT) : QOp → Bool
  | .opPushFront x => validateItem tmpl x
  | .opPushBack x => validateItem tmpl x
  | _ => true

/-- Run a sequence of mutating calls through the Queue Manager, keeping
the state unchanged on a rejected call (the manager throws before
mutating anything). -/
def mgrRunOps {σ} (L : LoaderOps σ) (inMemory : Bool) :
    List QOp → MgrState → σ → MgrState × σ
  | [], st, s => (st, s)
  | op :: ops, st, s =>
    let next : MgrState × σ :=
      match op with
      | .opGetFront =>
        match mgrGetFront L inMemory st s with
        | .ok (_, st', s') => (st', s')
        | .error _ => (st, s)
      | .opGetBack =>
        match mgrGetBack L inMemory st s with
        | .ok (_, st', s') => (st', s')
        | .error _ => (st, s)
      | .opPushFront x =>
        match mgrPushFront L inMemory st s x with
        | .ok (st', s') => (st', s')
        | .error _ => (st, s)
      | .opPushBack x =>
        match mgrPushBack L inMemory st s x with
        | .ok (st', s') => (st', s')
        | .error _ => (st, s)
    mgrRunOps L inMemory ops next.1 next.2

theorem mgrRunOps_cached {σ} (L : LoaderOps σ) :
    ∀ (ops : List QOp) (st : MgrState) (s : σ),
      (∀ op ∈ ops, opValid st.itemTemplate op = true) →
      mgrRunOps L true ops st s =
        ({ items := ops.foldl cachedStep st.items, itemTemplate := st.itemTemplate }, s) := by
  intro ops
  induction ops with
  | nil => intro st s _; rfl
  | cons op ops ih =>
    intro st s hval
    have hop : opValid st.itemTemplate op = true := hval op (by simp)
    have htail : ∀ o ∈ ops, opValid st.itemTemplate o = true :=
      fun o ho => hval o (by simp [ho])
    cases op with
    | opGetFront =>
      cases hi : st.items with
      | nil =>
        simp only [mgrRunOps, mgrGetFront, hi, if_true]
        rw [ih st s htail]
        simp [cachedStep, hi]
      | cons x rest =>
        simp only [mgrRunOps, mgrGetFront, hi, if_true]
        rw [ih { st with items := rest } s htail]
        simp [cachedStep, hi]
    | opGetBack =>
      cases hl : st.items.getLast? with
      | none =>
        have hnil : st.items = [] := List.getLast?_eq_none_iff.mp hl
        simp only [mgrRunOps, mgrGetBack, hl, if_true]
        rw [ih st s htail]
        simp [cachedStep, hnil]
      | some x =>
        simp only [mgrRunOps, mgrGetBack, hl, if_true]
        rw [ih { st with items := st.items.dropLast } s htail]
        simp [cachedStep]
    | opPushFront y =>
      have hv : validateItem st.itemTemplate y = true := hop
      simp only [mgrRunOps, mgrPushFront, hv, if_true]
      rw [ih { st with items := y :: st.items } s htail]
      simp [cachedStep]
    | opPushBack y =>
      have hv : validateItem st.itemTemplate y = true := hop
      simp only [mgrRunOps, mgrPushBack, hv, if_true]
      rw [ih { st with items := st.items ++ [y] } s htail]
      simp [cachedStep]

/-- C1: in cached mode (`config.inMemory` true), after `initialize`, any
sequence of successful mutating calls leaves the queue's contents equal
to the fold of those operations over the list obtained from the loader
at initialization, and `getFront`/`getBack`/`pushFront`/`pushBack` never
read or write the backing store: the run returns the store state `s₁`
untouched, for an arbitrary loader. -/
theorem cached_mode_fold_C1 {σ} (L : LoaderOps σ) (cfg : Option TemplateT)
    (s : σ) (st₀ : MgrState) (s₁ : σ) (ops : List QOp)
    (hinit : mgrInitialize L true cfg s = .ok (st₀, s₁))
    (hval : ∀ op ∈ ops, opValid st₀.itemTemplate op = true) :
    mgrRunOps L true ops st₀ s₁ =
      ({ items := ops.foldl cachedStep st₀.items,
         itemTemplate := st₀.itemTemplate }, s₁) ∧
    ∃ xs, L.getItems s = .ok (xs, s₁) ∧ st₀.items = xs := by
  refine ⟨mgrRunOps_cached L ops st₀ s₁ hval, ?_⟩
  unfold mgrInitialize at hinit
  simp only [if_true] at hinit
  cases hg : L.getItems s with
  | ok p =>
    rw [hg] at hinit
    obtain ⟨xs, s'⟩ := p
    simp only [Except.ok.injEq, Prod.mk.injEq] at hinit
    obtain ⟨hstate, hs⟩ := hinit
    exact ⟨xs, by rw [hs], by rw [← hstate]⟩
  | error e => rw [hg] at hinit; cases hinit

/-- Witness for C1 at a concrete run: memory loader holding one item,
then `pushBack {v:2}`; `getFront` on a cached queue. -/
theorem cached_mode_fold_C1_witness :
    mgrRunOps (memOps none) true [QOp.opPushBack (vObj [("v", vNum 2)]), QOp.opGetFront]
        { items := [vObj [("v", vNum 1)]], itemTemplate := none } [vObj [("v", vNum 1)]] =
      ({ items := [QOp.opPushBack (vObj [("v", vNum 2)]), QOp.opGetFront].foldl cachedStep
            [vObj [("v", vNum 1)]],
         itemTemplate := none }, [vObj [("v", vNum 1)]]) ∧
    ∃ xs, (memOps none).getItems [vObj [("v", vNum 1)]] = .ok (xs, [vObj [("v", vNum 1)]]) ∧
      [vObj [("v", vNum 1)]] = xs :=
  cached_mode_fold_C1 (memOps none) none [vObj [("v", vNum 1)]]
    { items := [vObj [("v", vNum 1)]], itemTemplate := none } [vObj [("v", vNum 1)]]
    [QOp.opPushBack (vObj [("v", vNum 2)]), QOp.opGetFront] rfl (by decide)

/-! ## JSON file loader (src/loaders/json-loader.ts)

The templates directory is modelled as an association list of file names
to parsed array contents (`fs.readdir` listing order is the list order);
writing replaces a file's content in place or appends a new file. -/

/-- Read a file's content from the directory model. -/
def fsGet {α : Type} (files : List (String × α)) (name : String) : Option α :=
  (files.find? (fun p => p.1 == name)).map (·.2)

/-- Write a file: replace its content when present, create it otherwise. -/
def fsWrite {α : Type} : List (String × α) → String → α → List (String × α)
  | [], f, xs => [(f, xs)]
  | p :: rest, f, xs => if p.1 == f then (f, xs) :: rest else p :: fsWrite rest f xs

theorem fsGet_fsWrite {α : Type} (files : List (String × α)) (f : String) (xs : α) :
    fsGet (fsWrite files f xs) f = some xs := by
  induction files with
  | nil =>
    rw [fsWrite, fsGet, List.find?_cons_of_pos _ (by simp)]
    rfl
  | cons p rest ih =>
    rw [fsWrite]
    by_cases h : p.1 = f
    · rw [if_pos (by simpa using h), fsGet, List.find?_cons_of_pos _ (by simp)]
      rfl
    · rw [if_neg (by simpa using h), fsGet,
        List.find?_cons_of_neg _ (by simpa using h)]
      exact ih

theorem fsGet_fsWrite_ne {α : Type} (files : List (String × α)) (f g : String) (xs : α)
    (h : g ≠ f) : fsGet (fsWrite files f xs) g = fsGet files g := by
  induction files with
  | nil =>
    rw [fsWrite, fsGet, List.find?_cons_of_neg _ (by simpa using h.symm)]
    rfl
  | cons p rest ih =>
    rw [fsWrite]
    by_cases hp : p.1 = f
    · rw [if_pos (by simpa using hp), fsGet, fsGet,
        List.find?_cons_of_neg _ (by simpa using Ne.symm h),
        List.find?_cons_of_neg _ (by simpa [hp] using Ne.symm h)]
    · rw [if_neg (by simpa using hp), fsGet, fsGet]
      by_cases hg : p.1 = g
      · rw [List.find?_cons_of_pos _ (by simpa using hg),
          List.find?_cons_of_pos _ (by simpa using hg)]
      · rw [List.find?_cons_of_neg _ (by simpa using hg),
          List.find?_cons_of_neg _ (by simpa using hg)]
        exact ih

/-- `JsonLoader` state: the templates directory and the active file. -/
structure JsonStore where
  files : List (String × List JValue)
  activeFile : Option String

/-- `getFilenameFromTemplateId`: append `.json` unless already present. -/
def jsonFileName (tid : String) : String :=
  if (".json".data).isSuffixOf tid.data then tid else tid ++ ".json"

/-- `loadJsonFile`: read and parse the named file (a missing file is the
read failure; files in the model always hold a parsed array). -/
def jsonLoadFile (s : JsonStore) (filename : String) : Except String (List JValue) :=
  match fsGet s.files filename with
  | some xs => .ok xs
  | none => .error ("Failed to load JSON file: " ++ filename)

/-- The `.json` directory listing (`readdir` + `.json` filter). -/
def jsonListing (s : JsonStore) : List (String × List JValue) :=
  s.files.filter (fun p => (".json".data).isSuffixOf p.1.data)

/-- `JsonLoader.getItems` (non-inMemory): read the active file, or adopt
the first listed `.json` file (empty directory yields `[]`). -/
def jsonGetItems (s : JsonStore) : Except String (List JValue × JsonStore) :=
  match s.activeFile with
  | none =>
    match jsonListing s with
    | [] => .ok ([], s)
    | (f, content) :: _ => .ok (content, { s with activeFile := some f })
  | some f =>
    match jsonLoadFile s f with
    | .ok xs => .ok (xs, s)
    | .error e => .error e

/-- `JsonLoader.saveItems` (non-inMemory): write the whole list to the
active file, defaulting the active file to `queue.json` first. -/
def jsonSaveItems (xs : List JValue) (s : JsonStore) : JsonStore :=
  let f := match s.activeFile with
    | some f => f
    | none => "queue.json"
  { files := fsWrite s.files f xs, activeFile := some f }

/-- `JsonLoader.addItemFront` (non-inMemory): read-all, unshift, write-all. -/
def jsonAddItemFront (x : JValue) (s : JsonStore) : Except String JsonStore :=
  match jsonGetItems s with
  | .ok (items, s₁) => .ok (jsonSaveItems (x :: items) s₁)
  | .error e => .error e

/-- `JsonLoader.addItemBack` (non-inMemory): read-all, push, write-all. -/
def jsonAddItemBack (x : JValue) (s : JsonStore) : Except String JsonStore :=
  match jsonGetItems s with
  | .ok (items, s₁) => .ok (jsonSaveItems (items ++ [x]) s₁)
  | .error e => .error e

/-- `JsonLoader.removeItemFront` (non-inMemory): empty content returns
`null` without writing; otherwise shift and write back, returning the raw
removed item. -/
def jsonRemoveItemFront (s : JsonStore) : Except String (Option JValue × JsonStore) :=
  match jsonGetItems s with
  | .ok ([], s₁) => .ok (none, s₁)
  | .ok (x :: rest, s₁) => .ok (some x, jsonSaveItems rest s₁)
  | .error e => .error e

/-- `JsonLoader.removeItemBack` (non-inMemory). -/
def jsonRemoveItemBack (s : JsonStore) : Except String (Option JValue × JsonStore) :=
  match jsonGetItems s with
  | .ok (items, s₁) =>
    match items.getLast? with
    | none => .ok (none, s₁)
    | some x => .ok (some x, jsonSaveItems items.dropLast s₁)
  | .error e => .error e

/-- `JsonLoader.hasTemplate`: `fs.access` on the template's file. -/
def jsonHasTemplate (tid : String) (s : JsonStore) : Bool :=
  (fsGet s.files (jsonFileName tid)).isSome

/-- `JsonLoader.loadTemplate`: sets the active file to the template's
file BEFORE reading it (the side effect behind claim C3's failure). -/
def jsonLoadTemplate (tid : String) (s : JsonStore) :
    Except String (List JValue × JsonStore) :=
  let f := jsonFileName tid
  let s' : JsonStore := { s with activeFile := some f }
  match jsonLoadFile s' f with
  | .ok xs => .ok (xs, s')
  | .error _ => .error ("Failed to load template: " ++ tid)

/-- `JsonLoader` as a loader (schema as established at initialization). -/
def jsonOps (schema : Option TemplateT) : LoaderOps JsonStore where
  getItemSchema := fun _ => schema
  getItems := jsonGetItems
  saveItems := jsonSaveItems
  addItemFront := jsonAddItemFront
  addItemBack := jsonAddItemBack
  removeItemFront := jsonRemoveItemFront
  removeItemBack := jsonRemoveItemBack
  hasTemplate := jsonHasTemplate
  loadTemplate := jsonLoadTemplate

theorem jsonGetItems_saveItems (xs : List JValue) (s : JsonStore) :
    jsonGetItems (jsonSaveItems xs s) = .ok (xs, jsonSaveItems xs s) := by
  unfold jsonSaveItems jsonGetItems jsonLoadFile
  cases s.activeFile <;> simp [fsGet_fsWrite]

/-- C5: `getFront()` and `getBack()` on an empty queue return `none` and
never raise: in cached mode for an arbitrary loader, and in pass-through
mode for the memory loader (empty internal list) and the JSON loader
(whenever the store's active content reads back as the empty list). -/
theorem empty_get_returns_none_C5 :
    (∀ {σ : Type} (L : LoaderOps σ) (st : MgrState) (s : σ), st.items = [] →
      mgrGetFront L true st s = .ok (none, st, s) ∧
      mgrGetBack L true st s = .ok (none, st, s)) ∧
    (∀ (c : Option TemplateT) (st : MgrState),
      mgrGetFront (memOps c) false st [] = .ok (none, st, []) ∧
      mgrGetBack (memOps c) false st [] = .ok (none, st, [])) ∧
    (∀ (sc : Option TemplateT) (st : MgrState) (s s' : JsonStore),
      jsonGetItems s = .ok ([], s') →
      mgrGetFront (jsonOps sc) false st s = .ok (none, st, s') ∧
      mgrGetBack (jsonOps sc) false st s = .ok (none, st, s')) := by
  refine ⟨?_, ?_, ?_⟩
  · intro σ L st s hempty
    constructor
    · simp [mgrGetFront, hempty]
    · simp [mgrGetBack, hempty]
  · intro c st
    constructor
    · rfl
    · rfl
  · intro sc st s s' hget
    constructor
    · simp [mgrGetFront, jsonOps, jsonRemoveItemFront, hget]
    · simp [mgrGetBack, jsonOps, jsonRemoveItemBack, hget]

/-- Witness for C5 at concrete states: an empty cached queue over the
memory loader, an empty memory store, and a JSON store whose active file
holds the empty array. -/
theorem empty_get_returns_none_C5_witness :
    (mgrGetFront (memOps none) true { items := [], itemTemplate := none } [] =
        .ok (none, { items := [], itemTemplate := none }, []) ∧
      mgrGetBack (memOps none) true { items := [], itemTemplate := none } [] =
        .ok (none, { items := [], itemTemplate := none }, [])) ∧
    (mgrGetFront (jsonOps none) false { items := [], itemTemplate := none }
          { files := [("queue.json", [])], activeFile := some "queue.json" } =
        .ok (none, { items := [], itemTemplate := none },
          { files := [("queue.json", [])], activeFile := some "queue.json" }) ∧
      mgrGetBack (jsonOps none) false { items := [], itemTemplate := none }
          { files := [("queue.json", [])], activeFile := some "queue.json" } =
        .ok (none, { items := [], itemTemplate := none },
          { files := [("queue.json", [])], activeFile := some "queue.json" })) :=
  ⟨empty_get_returns_none_C5.1 (memOps none) { items := [], itemTemplate := none } [] rfl,
   empty_get_returns_none_C5.2.2 none { items := [], itemTemplate := none }
     { files := [("queue.json", [])], activeFile := some "queue.json" }
     { files := [("queue.json", [])], activeFile := some "queue.json" } rfl⟩

/-- Counterexample to C6 as stated: with no template in effect, the value
`false` is accepted by validation, yet in cached mode `pushBack(false)`
followed by `getBack()` returns `null` (the manager's `items.pop() ||
null` coerces the falsy element), not `false`; the element is still
removed. -/
theorem push_then_get_falsy_cex_C6 :
    validateItem none (vBool false) = true ∧
    mgrPushBack (memOps none) true { items := [], itemTemplate := none } [] (vBool false) =
      .ok ({ items := [vBool false], itemTemplate := none }, []) ∧
    mgrGetBack (memOps none) true { items := [vBool false], itemTemplate := none } [] =
      .ok (none, { items := [], itemTemplate := none }, []) ∧
    (none : Option JValue) ≠ some (vBool false) := by
  refine ⟨rfl, rfl, rfl, by simp⟩

/-- C6 (amended): for every value accepted by validation that is not a JS
falsy value, `pushBack` then `getBack` returns it, and `pushFront` then
`getFront` returns it — in cached mode over any loader, and in
pass-through mode over the memory and JSON loaders (a template in effect
restricts accepted items to non-null objects, which are never falsy, so
the falsy restriction only bites template-free queues). -/
theorem push_then_get_returns_item_C6 {σ : Type} (L : LoaderOps σ) (st : MgrState)
    (s : σ) (x : JValue) (sm : List JValue) (c sc : Option TemplateT)
    (sj sj₁ : JsonStore) (cur : List JValue)
    (hv : validateItem st.itemTemplate x = true)
    (hf : isFalsy x = false)
    (hj : jsonGetItems sj = .ok (cur, sj₁)) :
    (mgrPushBack L true st s x = .ok ({ st with items := st.items ++ [x] }, s) ∧
      mgrGetBack L true { st with items := st.items ++ [x] } s = .ok (some x, st, s)) ∧
    (mgrPushFront L true st s x = .ok ({ st with items := x :: st.items }, s) ∧
      mgrGetFront L true { st with items := x :: st.items } s = .ok (some x, st, s)) ∧
    (mgrPushBack (memOps c) false st sm x = .ok (st, sm ++ [x]) ∧
      mgrGetBack (memOps c) false st (sm ++ [x]) = .ok (some x, st, sm)) ∧
    (mgrPushFront (memOps c) false st sm x = .ok (st, x :: sm) ∧
      mgrGetFront (memOps c) false st (x :: sm) = .ok (some x, st, sm)) ∧
    (mgrPushBack (jsonOps sc) false st sj x =
        .ok (st, jsonSaveItems (cur ++ [x]) sj₁) ∧
      mgrGetBack (jsonOps sc) false st (jsonSaveItems (cur ++ [x]) sj₁) =
        .ok (some x, st,
          jsonSaveItems cur (jsonSaveItems (cur ++ [x]) sj₁))) := by
  refine ⟨⟨?_, ?_⟩, ⟨?_, ?_⟩, ⟨?_, ?_⟩, ⟨?_, ?_⟩, ⟨?_, ?_⟩⟩
  · simp [mgrPushBack, hv]
  · simp [mgrGetBack, List.getLast?_concat, List.dropLast_concat, jsOrNull, hf]
  · simp [mgrPushFront, hv]
  · simp [mgrGetFront, jsOrNull, hf]
  · simp [mgrPushBack, hv, memOps]
  · simp [mgrGetBack, memOps, List.getLast?_concat, List.dropLast_concat, jsOrNull, hf]
  · simp [mgrPushFront, hv, memOps]
  · simp [mgrGetFront, memOps, jsOrNull, hf]
  · simp [mgrPushBack, hv, jsonOps, jsonAddItemBack, hj]
  · simp [mgrGetBack, jsonOps, jsonRemoveItemBack, jsonGetItems_saveItems,
      List.getLast?_concat, List.dropLast_concat]

/-- Witness for C6 (amended) at `x = {v:1}` on concrete stores. -/
theorem push_then_get_returns_item_C6_witness :
    mgrPushBack (memOps none) true { items := [], itemTemplate := none } []
        (vObj [("v", vNum 1)]) =
      .ok ({ items := [vObj [("v", vNum 1)]], itemTemplate := none }, []) ∧
    mgrGetBack (memOps none) true { items := [vObj [("v", vNum 1)]], itemTemplate := none } [] =
      .ok (some (vObj [("v", vNum 1)]), { items := [], itemTemplate := none }, []) :=
  ⟨(push_then_get_returns_item_C6 (memOps none) { items := [], itemTemplate := none }
      [] (vObj [("v", vNum 1)]) [] none none
      { files := [], activeFile := none } { files := [], activeFile := none } []
      rfl rfl rfl).1.1,
   (push_then_get_returns_item_C6 (memOps none) { items := [], itemTemplate := none }
      [] (vObj [("v", vNum 1)]) [] none none
      { files := [], activeFile := none } { files := [], activeFile := none } []
      rfl rfl rfl).1.2⟩

/-- C4: a push of an item failing validation raises the schema-mismatch
error and leaves both the manager's queue and the backing store unchanged
(the validation precedes any mutation, in either mode and for any
loader); a push of a valid item inserts it at the named end — at the head
or tail of the cached array, or of the loader's active content in
pass-through mode (memory and JSON loaders shown). -/
theorem push_rejects_or_inserts_C4 :
    (∀ {σ : Type} (L : LoaderOps σ) (im : Bool) (st : MgrState) (s : σ) (x : JValue),
      validateItem st.itemTemplate x = false →
        mgrPushFront L im st s x = .error "Item does not match the required schema" ∧
        mgrPushBack L im st s x = .error "Item does not match the required schema" ∧
        mgrRunOps L im [QOp.opPushFront x] st s = (st, s) ∧
        mgrRunOps L im [QOp.opPushBack x] st s = (st, s)) ∧
    (∀ {σ : Type} (L : LoaderOps σ) (st : MgrState) (s : σ) (x : JValue),
      validateItem st.itemTemplate x = true →
        mgrPushFront L true st s x = .ok ({ st with items := x :: st.items }, s) ∧
        mgrPushBack L true st s x = .ok ({ st with items := st.items ++ [x] }, s)) ∧
    (∀ (c : Option TemplateT) (st : MgrState) (sm : List JValue) (x : JValue),
      validateItem st.itemTemplate x = true →
        mgrPushFront (memOps c) false st sm x = .ok (st, x :: sm) ∧
        mgrPushBack (memOps c) false st sm x = .ok (st, sm ++ [x])) ∧
    (∀ (sc : Option TemplateT) (st : MgrState) (sj sj₁ : JsonStore)
        (cur : List JValue) (x : JValue),
      validateItem st.itemTemplate x = true →
      jsonGetItems sj = .ok (cur, sj₁) →
        mgrPushFront (jsonOps sc) false st sj x = .ok (st, jsonSaveItems (x :: cur) sj₁) ∧
        jsonGetItems (jsonSaveItems (x :: cur) sj₁) =
          .ok (x :: cur, jsonSaveItems (x :: cur) sj₁) ∧
        mgrPushBack (jsonOps sc) false st sj x = .ok (st, jsonSaveItems (cur ++ [x]) sj₁) ∧
        jsonGetItems (jsonSaveItems (cur ++ [x]) sj₁) =
          .ok (cur ++ [x], jsonSaveItems (cur ++ [x]) sj₁)) := by
  refine ⟨?_, ?_, ?_, ?_⟩
  · intro σ L im st s x hinv
    refine ⟨?_, ?_, ?_, ?_⟩ <;>
      simp [mgrPushFront, mgrPushBack, mgrRunOps, hinv]
  · intro σ L st s x hv
    exact ⟨by simp [mgrPushFront, hv], by simp [mgrPushBack, hv]⟩
  · intro c st sm x hv
    exact ⟨by simp [mgrPushFront, hv, memOps], by simp [mgrPushBack, hv, memOps]⟩
  · intro sc st sj sj₁ cur x hv hj
    refine ⟨?_, jsonGetItems_saveItems _ _, ?_, jsonGetItems_saveItems _ _⟩
    · simp [mgrPushFront, hv, jsonOps, jsonAddItemFront, hj]
    · simp [mgrPushBack, hv, jsonOps, jsonAddItemBack, hj]

/-- Witness for C4: with template `{task: string}`, pushing the number 5
errors and the run leaves state unchanged; pushing `{task:"a"}` inserts
it at the front of the cached array. -/
theorem push_rejects_or_inserts_C4_witness :
    mgrPushFront (memOps none) true
        { items := [], itemTemplate := some [("task", "string")] } [] (vNum 5) =
      .error "Item does not match the required schema" ∧
    mgrRunOps (memOps none) true [QOp.opPushBack (vNum 5)]
        { items := [], itemTemplate := some [("task", "string")] } [] =
      ({ items := [], itemTemplate := some [("task", "string")] }, []) ∧
    mgrPushFront (memOps none) true
        { items := [], itemTemplate := some [("task", "string")] } []
        (vObj [("task", vStr "a")]) =
      .ok ({ items := [vObj [("task", vStr "a")]],
             itemTemplate := some [("task", "string")] }, []) :=
  ⟨(push_rejects_or_inserts_C4.1 (memOps none) true
      { items := [], itemTemplate := some [("task", "string")] } [] (vNum 5)
      (by decide)).1,
   (push_rejects_or_inserts_C4.1 (memOps none) true
      { items := [], itemTemplate := some [("task", "string")] } [] (vNum 5)
      (by decide)).2.2.2,
   (push_rejects_or_inserts_C4.2.1 (memOps none)
      { items := [], itemTemplate := some [("task", "string")] } []
      (vObj [("task", vStr "a")]) (by decide)).1⟩

/-- C3: evaluation at the failing input.  In cached mode
`addFrontFromTemplate("t")` prepends the template block before the
previous contents, as the specification states (first conjunct).  In
pass-through mode, however, `loadTemplate` has already switched the
loader's active file to the template's own file, so the "current items"
the manager reads back are the template's items and the save targets the
template's file: with template `t` = `[{v:1},{v:2}]` and active queue
file `[{v:3}]`, the resulting active content is
`[{v:1},{v:2},{v:1},{v:2}]` (and `queue.json` is untouched), not the
specified `[{v:1},{v:2},{v:3}]`. -/
theorem addFrontFromTemplate_passthrough_bug_C3 :
    mgrAddFrontFromTemplate (jsonOps none) true
        { items := [vObj [("v", vNum 3)]], itemTemplate := none }
        { files := [("queue.json", [vObj [("v", vNum 3)]]),
                    ("t.json", [vObj [("v", vNum 1)], vObj [("v", vNum 2)]])],
          activeFile := some "queue.json" } "t" =
      .ok ({ items := [vObj [("v", vNum 1)], vObj [("v", vNum 2)], vObj [("v", vNum 3)]],
             itemTemplate := none },
        { files := [("queue.json", [vObj [("v", vNum 3)]]),
                    ("t.json", [vObj [("v", vNum 1)], vObj [("v", vNum 2)]])],
          activeFile := some "t.json" }) ∧
    mgrAddFrontFromTemplate (jsonOps none) false
        { items := [], itemTemplate := none }
        { files := [("queue.json", [vObj [("v", vNum 3)]]),
                    ("t.json", [vObj [("v", vNum 1)], vObj [("v", vNum 2)]])],
          activeFile := some "queue.json" } "t" =
      .ok ({ items := [], itemTemplate := none },
        { files := [("queue.json", [vObj [("v", vNum 3)]]),
                    ("t.json", [vObj [("v", vNum 1)], vObj [("v", vNum 2)],
                                vObj [("v", vNum 1)], vObj [("v", vNum 2)]])],
          activeFile := some "t.json" }) ∧
    jsonGetItems
        { files := [("queue.json", [vObj [("v", vNum 3)]]),
                    ("t.json", [vObj [("v", vNum 1)], vObj [("v", vNum 2)],
                                vObj [("v", vNum 1)], vObj [("v", vNum 2)]])],
          activeFile := some "t.json" } =
      .ok ([vObj [("v", vNum 1)], vObj [("v", vNum 2)],
            vObj [("v", vNum 1)], vObj [("v", vNum 2)]],
        { files := [("queue.json", [vObj [("v", vNum 3)]]),
                    ("t.json", [vObj [("v", vNum 1)], vObj [("v", vNum 2)],
                                vObj [("v", vNum 1)], vObj [("v", vNum 2)]])],
          activeFile := some "t.json" }) ∧
    [vObj [("v", vNum 1)], vObj [("v", vNum 2)],
     vObj [("v", vNum 1)], vObj [("v", vNum 2)]] ≠
      [vObj [("v", vNum 1)], vObj [("v", vNum 2)], vObj [("v", vNum 3)]] := by
  refine ⟨rfl, rfl, rfl, by simp⟩

/-! ## Numeric cell strings

The CSV and Sheet backends test string cells against the regular
expression `^-?\d+(\.\d+)?$` and convert matches with `parseFloat`.
The conversion is modelled exactly over `Rat` (the claims under study
do not depend on binary floating-point rounding of `parseFloat`). -/

/-- One decimal digit as a character. -/
def digitChar (d : Nat) : Char := Char.ofNat (48 + d)

/-- Numeric value of a digit character. -/
def digitVal (c : Char) : Nat := c.toNat - 48

/-- The value of a big-endian digit string. -/
def digitsToNat (cs : List Char) : Nat :=
  cs.foldl (fun a c => 10 * a + digitVal c) 0

/-- Decimal digits of a natural number, most significant first; the
first argument is recursion fuel (any bound on the number suffices, see
`natToChars`), keeping the definition kernel-reducible. -/
def natToCharsFuel : Nat → Nat → List Char → List Char
  | 0, n, acc => digitChar (n % 10) :: acc
  | fuel + 1, n, acc =>
    if n < 10 then digitChar n :: acc
    else natToCharsFuel fuel (n / 10) (digitChar (n % 10) :: acc)

/-- JS `String(n)` for a natural number. -/
def natToChars (n : Nat) : List Char := natToCharsFuel n n []

/-- JS `String(i)` for an integer (`-` prefix on negatives). -/
def intToChars : Int → List Char
  | .ofNat n => natToChars n
  | .negSucc m => '-' :: natToChars (m + 1)

/-- `\d+(\.\d+)?`: one or more digits, optionally a dot and one or more
digits. -/
def numBody (cs : List Char) : Bool :=
  let p := cs.span Char.isDigit
  decide (p.1 ≠ []) &&
    (match p.2 with
     | [] => true
     | '.' :: fs => decide (fs ≠ []) && fs.all Char.isDigit
     | _ => false)

/-- The numeric-cell regular expression `^-?\d+(\.\d+)?$`. -/
def isNumericChars (cs : List Char) : Bool :=
  match cs with
  | [] => false
  | c :: rest => if c = '-' then numBody rest else numBody (c :: rest)

/-- `parseFloat` on a match of `\d+(\.\d+)?`, exactly. -/
def parseNumBody (cs : List Char) : Rat :=
  let p := cs.span Char.isDigit
  match p.2 with
  | '.' :: fs =>
    mkRat (digitsToNat p.1 * 10 ^ fs.length + digitsToNat fs) (10 ^ fs.length)
  | _ => Rat.ofInt (digitsToNat p.1)

/-- `parseFloat` on a match of the numeric-cell regular expression. -/
def parseNumericChars (cs : List Char) : Rat :=
  match cs with
  | [] => 0
  | c :: rest => if c = '-' then -(parseNumBody rest) else parseNumBody (c :: rest)

/-- The numeric-cell test on strings (`/^-?\d+(\.\d+)?$/.test(value)`). -/
def isNumericString (s : String) : Bool := isNumericChars s.data

/-- `parseFloat(value)` on a numeric-cell match. -/
def parseNumericString (s : String) : Rat := parseNumericChars s.data

example : isNumericString "42" = true := by decide
example : isNumericString "-7" = true := by decide
example : isNumericString "1.5" = true := by decide
example : isNumericString "" = false := by decide
example : isNumericString "1." = false := by decide
example : isNumericString ".5" = false := by decide
example : isNumericString "true" = false := by decide
example : parseNumericString "42" = 42 := by decide
example : parseNumericString "-7" = -7 := by decide

/-- `CsvLoader.convertTypes`, per cell: numeric-regex matches become
numbers, `true`/`false` (lowercased) become booleans, anything else
stays a string. -/
def coerceCell (value : String) : JValue :=
  if isNumericString value then vNum (parseNumericString value)
  else if jsToLower value == "true" then vBool true
  else if jsToLower value == "false" then vBool false
  else vStr value

/-- `CsvLoader.convertTypes`: coerce every field of a parsed CSV record. -/
def convertTypes (row : List (String × String)) : List (String × JValue) :=
  row.map (fun p => (p.1, coerceCell p.2))

/-- The inline cell conversion of `GoogleSheetLoader.loadSheet` (same
regular-expression and `true`/`false` tests as the CSV loader's
`convertTypes`). -/
def gsCoerceCell (value : String) : JValue :=
  if isNumericString value then vNum (parseNumericString value)
  else if jsToLower value == "true" then vBool true
  else if jsToLower value == "false" then vBool false
  else vStr value

example : coerceCell "42" = vNum 42 := by decide
example : coerceCell "TRUE" = vBool true := by decide
example : coerceCell "x1" = vStr "x1" := by decide

theorem digitChar_spec (d : Nat) (hd : d < 10) :
    digitVal (digitChar d) = d ∧ Char.isDigit (digitChar d) = true := by
  interval_cases d <;> exact ⟨by decide, by decide⟩

theorem digitsToNat_append_singleton (cs : List Char) (c : Char) :
    digitsToNat (cs ++ [c]) = 10 * digitsToNat cs + digitVal c := by
  simp [digitsToNat, List.foldl_append]

theorem natToCharsFuel_acc (fuel : Nat) :
    ∀ (n : Nat) (acc : List Char),
      natToCharsFuel fuel n acc = natToCharsFuel fuel n [] ++ acc := by
  induction fuel with
  | zero => intro n acc; simp [natToCharsFuel]
  | succ fuel ih =>
    intro n acc
    by_cases h : n < 10
    · simp [natToCharsFuel, h]
    · rw [natToCharsFuel, if_neg h, ih (n / 10) (digitChar (n % 10) :: acc),
        natToCharsFuel, if_neg h, ih (n / 10) [digitChar (n % 10)],
        List.append_assoc, List.singleton_append]

theorem natToCharsFuel_spec (fuel : Nat) :
    ∀ n : Nat, n ≤ fuel →
      natToCharsFuel fuel n [] ≠ [] ∧
      (∀ c ∈ natToCharsFuel fuel n [], Char.isDigit c = true) ∧
      digitsToNat (natToCharsFuel fuel n []) = n := by
  induction fuel with
  | zero =>
    intro n hn
    have hn0 : n = 0 := Nat.le_zero.mp hn
    subst hn0
    refine ⟨by simp [natToCharsFuel], ?_, by decide⟩
    intro c hc
    simp [natToCharsFuel] at hc
    subst hc
    decide
  | succ fuel ih =>
    intro n hn
    by_cases h : n < 10
    · rw [natToCharsFuel, if_pos h]
      refine ⟨by simp, ?_, ?_⟩
      · intro c hc
        simp at hc
        subst hc
        exact (digitChar_spec n h).2
      · show 10 * 0 + digitVal (digitChar n) = n
        rw [(digitChar_spec n h).1]
        omega
    · have hpos : 0 < n := by omega
      have hlt : n / 10 < n := Nat.div_lt_self hpos (by omega)
      have hdiv : n / 10 ≤ fuel := by omega
      obtain ⟨hne, hdig, hval⟩ := ih (n / 10) hdiv
      rw [natToCharsFuel, if_neg h, natToCharsFuel_acc]
      refine ⟨by simp, ?_, ?_⟩
      · intro c hc
        rcases List.mem_append.mp hc with hc1 | hc2
        · exact hdig c hc1
        · simp at hc2
          subst hc2
          exact (digitChar_spec (n % 10) (Nat.mod_lt n (by omega))).2
      · rw [digitsToNat_append_singleton, hval,
          (digitChar_spec (n % 10) (Nat.mod_lt n (by omega))).1]
        omega

theorem natToChars_spec (n : Nat) :
    natToChars n ≠ [] ∧
    (∀ c ∈ natToChars n, Char.isDigit c = true) ∧
    digitsToNat (natToChars n) = n :=
  natToCharsFuel_spec n n le_rfl

theorem span_of_all_digits (cs : List Char) (h : ∀ c ∈ cs, Char.isDigit c = true) :
    cs.span Char.isDigit = (cs, []) := by
  rw [List.span_eq_take_drop, List.takeWhile_eq_self_iff.mpr h,
    List.dropWhile_eq_nil_iff.mpr h]

theorem numBody_of_digits (cs : List Char) (hne : cs ≠ [])
    (h : ∀ c ∈ cs, Char.isDigit c = true) : numBody cs = true := by
  unfold numBody
  rw [span_of_all_digits cs h]
  simp [hne]

theorem parseNumBody_of_digits (cs : List Char)
    (h : ∀ c ∈ cs, Char.isDigit c = true) :
    parseNumBody cs = Rat.ofInt (digitsToNat cs) := by
  unfold parseNumBody
  rw [span_of_all_digits cs h]

theorem isNumericChars_intToChars (i : Int) :
    isNumericChars (intToChars i) = true := by
  cases i with
  | ofNat n =>
    obtain ⟨hne, hdig, _⟩ := natToChars_spec n
    show isNumericChars (natToChars n) = true
    cases hcs : natToChars n with
    | nil => exact absurd hcs hne
    | cons c rest =>
      rw [hcs] at hdig
      have hc : Char.isDigit c = true := hdig c (by simp)
      have hcd : ¬(c = '-') := by
        intro hEq
        rw [hEq] at hc
        exact absurd hc (by decide)
      rw [isNumericChars, if_neg hcd]
      exact numBody_of_digits _ (by simp) hdig
  | negSucc m =>
    obtain ⟨hne, hdig, _⟩ := natToChars_spec (m + 1)
    show isNumericChars ('-' :: natToChars (m + 1)) = true
    rw [isNumericChars, if_pos rfl]
    exact numBody_of_digits _ hne hdig

theorem parseNumericChars_intToChars (i : Int) :
    parseNumericChars (intToChars i) = Rat.ofInt i := by
  cases i with
  | ofNat n =>
    obtain ⟨hne, hdig, hval⟩ := natToChars_spec n
    show parseNumericChars (natToChars n) = Rat.ofInt (Int.ofNat n)
    cases hcs : natToChars n with
    | nil => exact absurd hcs hne
    | cons c rest =>
      rw [hcs] at hdig hval
      have hc : Char.isDigit c = true := hdig c (by simp)
      have hcd : ¬(c = '-') := by
        intro hEq
        rw [hEq] at hc
        exact absurd hc (by decide)
      rw [parseNumericChars, if_neg hcd, parseNumBody_of_digits _ hdig, hval]
      congr 1
  | negSucc m =>
    obtain ⟨hne, hdig, hval⟩ := natToChars_spec (m + 1)
    show parseNumericChars ('-' :: natToChars (m + 1)) = Rat.ofInt (Int.negSucc m)
    rw [parseNumericChars, if_pos rfl, parseNumBody_of_digits _ hdig, hval,
      Rat.ofInt_eq_cast, Rat.ofInt_eq_cast, Int.negSucc_eq]
    push_cast
    rfl

/-! ## Cell rendering on write -/

/-- Modelled from the spec: JS `String(value)` for a number.  Integral
values print as their decimal digits with a `-` prefix when negative.
The decimal expansion of non-integral doubles is not modelled — the
round-trip statements below restrict number cells to integral values,
so the fallback never arises in any theorem. -/
def renderNum (q : Rat) : String :=
  if q.den = 1 then ⟨intToChars q.num⟩ else "non-integral"

/-- Escape `"` and `\` for the JSON string rendering. -/
def jsonEscape (s : String) : String :=
  ⟨s.data.foldr (fun c acc =>
    if c = '"' ∨ c = '\\' then '\\' :: c :: acc else c :: acc) []⟩

mutual

/-- `JSON.stringify` (compact form) restricted to the value model; used
by the Sheet backend for non-primitive cells. -/
def jsonRender : JValue → String
  | vNull => "null"
  | vBool true => "true"
  | vBool false => "false"
  | vNum q => renderNum q
  | vStr s => "\"" ++ jsonEscape s ++ "\""
  | vArr xs => "[" ++ jsonRenderList xs ++ "]"
  | vObj fs => "\x7b" ++ jsonRenderFields fs ++ "\x7d"

/-- Comma-separated rendering of an array's elements. -/
def jsonRenderList : List JValue → String
  | [] => ""
  | [x] => jsonRender x
  | x :: xs => jsonRender x ++ "," ++ jsonRenderList xs

/-- Comma-separated rendering of an object's fields. -/
def jsonRenderFields : List (String × JValue) → String
  | [] => ""
  | [(k, v)] => "\"" ++ jsonEscape k ++ "\":" ++ jsonRender v
  | (k, v) :: fs => "\"" ++ jsonEscape k ++ "\":" ++ jsonRender v ++ "," ++ jsonRenderFields fs

end

/-- `GoogleSheetLoader.writeSheet`, per cell: `null`/`undefined` become
the empty cell, objects are JSON-stringified, all other values go
through `String(value)`. -/
def gsRenderCell : Option JValue → String
  | none => ""
  | some vNull => ""
  | some (vObj fs) => jsonRender (vObj fs)
  | some (vArr xs) => jsonRender (vArr xs)
  | some (vNum q) => renderNum q
  | some (vBool b) => if b then "true" else "false"
  | some (vStr s) => s

/-- Modelled from the spec: the CSV cell serialization performed by the
third-party `csv-stringify` library; scalar cells are modelled with the
same `String(value)` conversion the Sheet backend applies (booleans as
`true`/`false`, numbers as decimal digits, strings verbatim — CSV
quoting is transparent at the row model's level). -/
def csvRenderCell (v : Option JValue) : String := gsRenderCell v

/-- An object's key list (`Object.keys`). -/
def objKeys {α : Type} (item : List (String × α)) : List String :=
  item.map Prod.fst

/-- JS property assignment `obj[k] = v`: replace the value in place when
the key exists, append the property otherwise. -/
def objSet {α : Type} (item : List (String × α)) (k : String) (v : α) :
    List (String × α) :=
  if (objKeys item).contains k then
    item.map (fun p => if p.1 == k then (k, v) else p)
  else item ++ [(k, v)]

/-! ## Cell-level round trip -/

/-- A cell value the textual backends can reproduce on re-read: a
boolean, an integral number, or a string the read-side coercion leaves
alone.  (`null`, objects and arrays are flattened to text on write;
coercible strings come back as numbers or booleans — see the C7
counterexample.) -/
def cellOK : JValue → Bool
  | vNum q => q.den == 1
  | vBool _ => true
  | vStr s => !isNumericString s && !(jsToLower s == "true") && !(jsToLower s == "false")
  | _ => false

theorem gsCoerceCell_eq_coerceCell (s : String) : gsCoerceCell s = coerceCell s := rfl

theorem rat_ofInt_num_of_den_one (q : Rat) (h : q.den = 1) : Rat.ofInt q.num = q := by
  refine Rat.ext rfl ?_
  rw [h]
  rfl

theorem coerceCell_gsRenderCell (v : JValue) (h : cellOK v = true) :
    coerceCell (gsRenderCell (some v)) = v := by
  cases v with
  | vNum q =>
    have hden : q.den = 1 := by simpa [cellOK] using h
    show coerceCell (renderNum q) = vNum q
    rw [renderNum, if_pos hden]
    have h1 : isNumericString ⟨intToChars q.num⟩ = true := isNumericChars_intToChars q.num
    have h2 : parseNumericString ⟨intToChars q.num⟩ = Rat.ofInt q.num :=
      parseNumericChars_intToChars q.num
    rw [coerceCell, if_pos h1, h2, rat_ofInt_num_of_den_one q hden]
  | vBool b => cases b <;> decide
  | vStr s =>
    have hs := h
    simp only [cellOK, Bool.and_eq_true, Bool.not_eq_true'] at hs
    obtain ⟨⟨h1, h2⟩, h3⟩ := hs
    show coerceCell s = vStr s
    rw [coerceCell, if_neg (by simp [h1]), if_neg (by simp [h2]), if_neg (by simp [h3])]
  | vNull => simp [cellOK] at h
  | vArr xs => simp [cellOK] at h
  | vObj fs => simp [cellOK] at h

theorem map_jsLookup_keys (item : List (String × JValue))
    (hnd : (objKeys item).Nodup) :
    (objKeys item).map (fun k => jsLookup k item) = item.map (fun p => some p.2) := by
  induction item with
  | nil => rfl
  | cons p rest ih =>
    obtain ⟨k, v⟩ := p
    simp only [objKeys, List.map_cons] at hnd ⊢
    rw [List.nodup_cons] at hnd
    obtain ⟨hk, hrest⟩ := hnd
    congr 1
    · simp [jsLookup, List.find?_cons_of_pos]
    · have hpt : ∀ g ∈ (rest.map Prod.fst), jsLookup g ((k, v) :: rest) = jsLookup g rest := by
        intro g hg
        have hne : ¬(k = g) := fun hEq => hk (hEq ▸ hg)
        rw [jsLookup, List.find?_cons_of_neg _ (by simpa using hne), jsLookup]
      rw [List.map_congr_left hpt]
      exact ih hrest

theorem foldl_objSet {α : Type} (ys : List (String × α)) :
    ∀ acc : List (String × α),
      (objKeys acc ++ objKeys ys).Nodup →
      ys.foldl (fun a p => objSet a p.1 p.2) acc = acc ++ ys := by
  induction ys with
  | nil => intro acc _; simp
  | cons p ys ih =>
    intro acc hnd
    obtain ⟨k, v⟩ := p
    have hdisj : (objKeys acc).Disjoint (objKeys ((k, v) :: ys)) :=
      List.disjoint_of_nodup_append hnd
    have hknotin : k ∉ objKeys acc := fun hmem => hdisj hmem (by simp [objKeys])
    have hstep : objSet acc k v = acc ++ [(k, v)] := by
      rw [objSet, if_neg (by simpa using hknotin)]
    have hnd2 : (objKeys (acc ++ [(k, v)]) ++ objKeys ys).Nodup := by
      simp only [objKeys, List.map_append, List.map_cons, List.map_nil] at hnd ⊢
      rw [← List.append_cons]
      exact hnd
    calc ((k, v) :: ys).foldl (fun a p => objSet a p.1 p.2) acc
        = ys.foldl (fun a p => objSet a p.1 p.2) (acc ++ [(k, v)]) := by
          rw [List.foldl_cons, hstep]
      _ = (acc ++ [(k, v)]) ++ ys := ih (acc ++ [(k, v)]) hnd2
      _ = acc ++ ((k, v) :: ys) := by simp

/-! ## Sheet backend rows and store (src/loaders/googlesheet-loader.ts) -/

/-- `GoogleSheetLoader.loadSheet`, one data row: each header takes the
coerced cell at its index, `null` when the row is shorter (formulated
with `take`/`replicate` padding, equivalent to the source's
`forEach((header, index) => if (index < row.length) ... else null)`). -/
def gsRowToItem (headers row : List String) : List (String × JValue) :=
  let cells := (row.take headers.length).map gsCoerceCell ++
    List.replicate (headers.length - row.length) vNull
  (headers.zip cells).foldl (fun acc p => objSet acc p.1 p.2) []

/-- `GoogleSheetLoader.loadSheet`: first row is the headers, every other
row becomes an item (no rows at all means no items). -/
def gsRowsToItems (rows : List (List String)) : List (List (String × JValue)) :=
  match rows with
  | [] => []
  | headers :: data => data.map (gsRowToItem headers)

/-- `GoogleSheetLoader.writeSheet`: clear, then headers from the first
item's keys and one row per item in header order (empty list writes no
rows). -/
def gsWriteRows (data : List (List (String × JValue))) : List (List String) :=
  match data with
  | [] => []
  | x₀ :: _ =>
    let headers := objKeys x₀
    headers :: data.map (fun item => headers.map (fun h => gsRenderCell (jsLookup h item)))

/-- `GoogleSheetLoader` store state: the spreadsheet's sheets (name to
rows), the list of available sheet names and the active sheet. -/
structure SheetStore where
  sheets : List (String × List (List String))
  availableSheets : List String
  activeSheet : Option String

/-- `GoogleSheetLoader.loadSheet` against the store ( an absent range
reads as no rows). -/
def gsLoadSheet (s : SheetStore) (name : String) : List (List (String × JValue)) :=
  gsRowsToItems ((fsGet s.sheets name).getD [])

/-- `GoogleSheetLoader.getItems` (non-inMemory): the active sheet, else
the first available sheet, else no items. -/
def gsGetItemsSt (s : SheetStore) : List (List (String × JValue)) × SheetStore :=
  match s.activeSheet with
  | some t => (gsLoadSheet s t, s)
  | none =>
    match s.availableSheets with
    | t :: _ => (gsLoadSheet s t, { s with activeSheet := some t })
    | [] => ([], s)

/-- `GoogleSheetLoader.saveItems` (non-inMemory): pick or create the
target sheet (`Sheet1` when none exists), then clear-and-write. -/
def gsSaveItemsSt (xs : List (List (String × JValue))) (s : SheetStore) : SheetStore :=
  match s.activeSheet with
  | some t => { s with sheets := fsWrite s.sheets t (gsWriteRows xs), activeSheet := some t }
  | none =>
    match s.availableSheets with
    | t :: _ =>
      { s with sheets := fsWrite s.sheets t (gsWriteRows xs), activeSheet := some t }
    | [] =>
      { sheets := fsWrite s.sheets "Sheet1" (gsWriteRows xs),
        availableSheets := s.availableSheets ++ ["Sheet1"],
        activeSheet := some "Sheet1" }

/-! ## CSV backend rows and store (src/loaders/csv-loader.ts) -/

/-- Modelled from the spec: the third-party `csv-parser` builds one
record per data row, keyed by the header row (header `i` takes cell `i`). -/
def csvRowToRecord (headers row : List String) : List (String × String) :=
  (headers.zip row).foldl (fun acc p => objSet acc p.1 p.2) []

/-- `CsvLoader.loadCsvFile` on a parsed row list: header row first, then
`convertTypes` on each data record. -/
def csvRowsToItems (rows : List (List String)) : List (List (String × JValue)) :=
  match rows with
  | [] => []
  | headers :: data => data.map (fun row => convertTypes (csvRowToRecord headers row))

/-- `CsvLoader.saveCsvFile`: an empty item list writes an empty file;
otherwise headers from the first item's keys, then one row per item in
header order. -/
def csvWriteRows (data : List (List (String × JValue))) : List (List String) :=
  match data with
  | [] => []
  | x₀ :: _ =>
    let headers := objKeys x₀
    headers :: data.map (fun item => headers.map (fun h => csvRenderCell (jsLookup h item)))

/-- `CsvLoader` store state: the templates directory (`.csv` files as
row lists) and the active file. -/
structure CsvStore where
  files : List (String × List (List String))
  activeFile : Option String

/-- `getFilenameFromTemplateId` (CSV): append `.csv` unless present. -/
def csvFileName (tid : String) : String :=
  if (".csv".data).isSuffixOf tid.data then tid else tid ++ ".csv"

/-- `CsvLoader.loadCsvFile`: read and parse the named file. -/
def csvLoadFile (s : CsvStore) (filename : String) :
    Except String (List (List (String × JValue))) :=
  match fsGet s.files filename with
  | some rows => .ok (csvRowsToItems rows)
  | none => .error ("Failed to load CSV file: " ++ filename)

/-- The `.csv` directory listing. -/
def csvListing (s : CsvStore) : List (String × List (List String)) :=
  s.files.filter (fun p => (".csv".data).isSuffixOf p.1.data)

/-- `CsvLoader.getItems` (non-inMemory). -/
def csvGetItemsSt (s : CsvStore) :
    Except String (List (List (String × JValue)) × CsvStore) :=
  match s.activeFile with
  | none =>
    match csvListing s with
    | [] => .ok ([], s)
    | (f, rows) :: _ => .ok (csvRowsToItems rows, { s with activeFile := some f })
  | some f =>
    match csvLoadFile s f with
    | .ok xs => .ok (xs, s)
    | .error e => .error e

/-- `CsvLoader.saveItems` (non-inMemory): write all rows to the active
file, defaulting it to `queue.csv`. -/
def csvSaveItemsSt (xs : List (List (String × JValue))) (s : CsvStore) : CsvStore :=
  let f := match s.activeFile with
    | some f => f
    | none => "queue.csv"
  { files := fsWrite s.files f (csvWriteRows xs), activeFile := some f }

/-- Item lists the textual backends reproduce exactly: every item has
the first item's key list (no duplicates) and every cell satisfies
`cellOK`. -/
def itemsOK (xs : List (List (String × JValue))) : Prop :=
  match xs with
  | [] => True
  | x₀ :: _ =>
    (objKeys x₀).Nodup ∧
    ∀ x ∈ xs, objKeys x = objKeys x₀ ∧ ∀ p ∈ x, cellOK p.2 = true

theorem renderRow_eq_map (item : List (String × JValue))
    (hnd : (objKeys item).Nodup) :
    (objKeys item).map (fun h => gsRenderCell (jsLookup h item)) =
      item.map (fun p => gsRenderCell (some p.2)) := by
  have : (fun h => gsRenderCell (jsLookup h item)) =
      (gsRenderCell ∘ fun h => jsLookup h item) := rfl
  rw [this, ← List.map_map, map_jsLookup_keys item hnd, List.map_map]
  rfl

theorem gsRowToItem_roundtrip (item : List (String × JValue))
    (hnd : (objKeys item).Nodup)
    (hcells : ∀ p ∈ item, cellOK p.2 = true) :
    gsRowToItem (objKeys item)
      ((objKeys item).map (fun h => gsRenderCell (jsLookup h item))) = item := by
  rw [renderRow_eq_map item hnd]
  unfold gsRowToItem
  have hlen : (item.map (fun p => gsRenderCell (some p.2))).length = (objKeys item).length := by
    simp [objKeys]
  rw [show (objKeys item).length = (item.map (fun p => gsRenderCell (some p.2))).length
      from hlen.symm] at *
  rw [List.take_length, hlen, Nat.sub_self, List.replicate_zero, List.append_nil,
    List.map_map]
  have hcells2 : item.map (gsCoerceCell ∘ fun p => gsRenderCell (some p.2)) =
      item.map Prod.snd := by
    apply List.map_congr_left
    intro p hp
    show gsCoerceCell (gsRenderCell (some p.2)) = p.2
    rw [gsCoerceCell_eq_coerceCell]
    exact coerceCell_gsRenderCell p.2 (hcells p hp)
  rw [hcells2]
  have hzip : (objKeys item).zip (item.map Prod.snd) = item.map (fun p => (p.1, p.2)) :=
    List.zip_map' Prod.fst Prod.snd item
  show List.foldl (fun acc p => objSet acc p.1 p.2) []
    ((objKeys item).zip (item.map Prod.snd)) = item
  rw [hzip]
  have heta : item.map (fun p => (p.1, p.2)) = item := by simp
  rw [heta]
  have := foldl_objSet item []
  simp only [objKeys, List.map_nil, List.nil_append] at this
  exact this (by simpa [objKeys] using hnd)

theorem csvRowToItem_roundtrip (item : List (String × JValue))
    (hnd : (objKeys item).Nodup)
    (hcells : ∀ p ∈ item, cellOK p.2 = true) :
    convertTypes (csvRowToRecord (objKeys item)
      ((objKeys item).map (fun h => csvRenderCell (jsLookup h item)))) = item := by
  show convertTypes (csvRowToRecord (objKeys item)
    ((objKeys item).map (fun h => gsRenderCell (jsLookup h item)))) = item
  rw [renderRow_eq_map item hnd]
  unfold csvRowToRecord
  have hzip : (objKeys item).zip (item.map (fun p => gsRenderCell (some p.2))) =
      item.map (fun p => (p.1, gsRenderCell (some p.2))) :=
    List.zip_map' Prod.fst (fun p => gsRenderCell (some p.2)) item
  rw [hzip]
  have hfold := foldl_objSet (item.map (fun p => (p.1, gsRenderCell (some p.2)))) []
  simp only [List.nil_append] at hfold
  rw [hfold (by simpa [objKeys, List.map_map] using hnd)]
  unfold convertTypes
  rw [List.map_map]
  apply List.map_congr_left ?_ |>.trans (by simp : item.map (fun p => (p.1, p.2)) = item)
  intro p hp
  show (p.1, coerceCell (gsRenderCell (some p.2))) = (p.1, p.2)
  rw [coerceCell_gsRenderCell p.2 (hcells p hp)]

theorem gsRowsToItems_writeRows (xs : List (List (String × JValue)))
    (h : itemsOK xs) : gsRowsToItems (gsWriteRows xs) = xs := by
  cases xs with
  | nil => rfl
  | cons x₀ rest =>
    obtain ⟨hnd, hx⟩ := h
    show (((x₀ :: rest).map
        (fun item => (objKeys x₀).map (fun k => gsRenderCell (jsLookup k item)))).map
          (gsRowToItem (objKeys x₀))) = x₀ :: rest
    rw [List.map_map]
    apply List.map_congr_left ?_ |>.trans (List.map_id (x₀ :: rest))
    intro item hitem
    obtain ⟨hkeys, hcells⟩ := hx item hitem
    show gsRowToItem (objKeys x₀)
      ((objKeys x₀).map (fun k => gsRenderCell (jsLookup k item))) = item
    rw [← hkeys]
    exact gsRowToItem_roundtrip item (hkeys ▸ hnd) hcells

theorem csvRowsToItems_writeRows (xs : List (List (String × JValue)))
    (h : itemsOK xs) : csvRowsToItems (csvWriteRows xs) = xs := by
  cases xs with
  | nil => rfl
  | cons x₀ rest =>
    obtain ⟨hnd, hx⟩ := h
    show (((x₀ :: rest).map
        (fun item => (objKeys x₀).map (fun k => csvRenderCell (jsLookup k item)))).map
          (fun row => convertTypes (csvRowToRecord (objKeys x₀) row))) = x₀ :: rest
    rw [List.map_map]
    apply List.map_congr_left ?_ |>.trans (List.map_id (x₀ :: rest))
    intro item hitem
    obtain ⟨hkeys, hcells⟩ := hx item hitem
    show convertTypes (csvRowToRecord (objKeys x₀)
      ((objKeys x₀).map (fun k => csvRenderCell (jsLookup k item)))) = item
    rw [← hkeys]
    exact csvRowToItem_roundtrip item (hkeys ▸ hnd) hcells

theorem gsGetItemsSt_saveItemsSt (xs : List (List (String × JValue)))
    (s : SheetStore) (h : itemsOK xs) :
    gsGetItemsSt (gsSaveItemsSt xs s) = (xs, gsSaveItemsSt xs s) := by
  unfold gsSaveItemsSt gsGetItemsSt gsLoadSheet
  cases hA : s.activeSheet with
  | some t => simp [fsGet_fsWrite, gsRowsToItems_writeRows xs h]
  | none =>
    cases hL : s.availableSheets with
    | cons t ts => simp [fsGet_fsWrite, gsRowsToItems_writeRows xs h]
    | nil => simp [fsGet_fsWrite, gsRowsToItems_writeRows xs h]

theorem csvGetItemsSt_saveItemsSt (xs : List (List (String × JValue)))
    (s : CsvStore) (h : itemsOK xs) :
    csvGetItemsSt (csvSaveItemsSt xs s) = .ok (xs, csvSaveItemsSt xs s) := by
  unfold csvSaveItemsSt csvGetItemsSt csvLoadFile
  cases hA : s.activeFile <;>
    simp [fsGet_fsWrite, csvRowsToItems_writeRows xs h]

/-- Counterexample to C7 as stated: on the Sheet backend (the CSV cell
coercion is the same), `saveItems([{a:"42"}])` writes the cell text
`42`, and `getItems()` reads it back coerced to the number `42`, which
is not value-equal to the string `"42"`. -/
theorem saveItems_roundtrip_cex_C7 :
    gsGetItemsSt (gsSaveItemsSt [[("a", vStr "42")]]
        { sheets := [("Sheet1", [])], availableSheets := ["Sheet1"],
          activeSheet := some "Sheet1" }) =
      ([[("a", vNum 42)]],
        { sheets := [("Sheet1", [["a"], ["42"]])], availableSheets := ["Sheet1"],
          activeSheet := some "Sheet1" }) ∧
    [[("a", vNum 42)]] ≠ [[("a", vStr "42")]] :=
  ⟨rfl, by simp⟩

/-- C7 (amended): `saveItems(xs)` followed by `getItems()` returns items
value-equal to `xs` — unconditionally for the File-JSON backend, and for
the File-CSV and Remote-Spreadsheet backends whenever every item carries
the first item's (duplicate-free) key list and every cell is a boolean,
an integral number, or a string not claimed by the read-side coercion
(strings matching the numeric regular expression or spelling a boolean
come back as numbers/booleans — see the counterexample). -/
theorem saveItems_roundtrip_amended_C7 :
    (∀ (xs : List JValue) (s : JsonStore),
      jsonGetItems (jsonSaveItems xs s) = .ok (xs, jsonSaveItems xs s)) ∧
    (∀ (xs : List (List (String × JValue))) (s : SheetStore), itemsOK xs →
      gsGetItemsSt (gsSaveItemsSt xs s) = (xs, gsSaveItemsSt xs s)) ∧
    (∀ (xs : List (List (String × JValue))) (s : CsvStore), itemsOK xs →
      csvGetItemsSt (csvSaveItemsSt xs s) = .ok (xs, csvSaveItemsSt xs s)) :=
  ⟨jsonGetItems_saveItems, gsGetItemsSt_saveItemsSt, csvGetItemsSt_saveItemsSt⟩

/-- Witness for C7 (amended) on concrete stores: a two-item list with a
number, a string and a boolean column round-trips through the Sheet
backend (fresh spreadsheet) and the CSV backend (fresh directory). -/
theorem saveItems_roundtrip_amended_C7_witness :
    gsGetItemsSt (gsSaveItemsSt
        [[("a", vNum 1), ("b", vStr "x"), ("c", vBool true)],
         [("a", vNum 2), ("b", vStr "y"), ("c", vBool false)]]
        { sheets := [], availableSheets := [], activeSheet := none }) =
      ([[("a", vNum 1), ("b", vStr "x"), ("c", vBool true)],
        [("a", vNum 2), ("b", vStr "y"), ("c", vBool false)]],
       gsSaveItemsSt
        [[("a", vNum 1), ("b", vStr "x"), ("c", vBool true)],
         [("a", vNum 2), ("b", vStr "y"), ("c", vBool false)]]
        { sheets := [], availableSheets := [], activeSheet := none }) ∧
    csvGetItemsSt (csvSaveItemsSt [[("n", vNum (-7)), ("s", vStr "hi")]]
        { files := [], activeFile := none }) =
      .ok ([[("n", vNum (-7)), ("s", vStr "hi")]],
        csvSaveItemsSt [[("n", vNum (-7)), ("s", vStr "hi")]]
          { files := [], activeFile := none }) :=
  ⟨saveItems_roundtrip_amended_C7.2.1 _ _ ⟨by decide, by decide⟩,
   saveItems_roundtrip_amended_C7.2.2 _ _ ⟨by decide, by decide⟩⟩

/-- C8: on read, the CSV and Sheet backends coerce each string cell in
the same way: a numeric-regex match becomes the corresponding number, a
case-insensitive `true`/`false` becomes the corresponding boolean, and
every other cell stays the same string (with concrete instances). -/
theorem string_cell_coercion_C8 :
    (∀ s : String, isNumericString s = true →
      coerceCell s = vNum (parseNumericString s)) ∧
    (∀ s : String, isNumericString s = false → jsToLower s = "true" →
      coerceCell s = vBool true) ∧
    (∀ s : String, isNumericString s = false → jsToLower s = "false" →
      coerceCell s = vBool false) ∧
    (∀ s : String, isNumericString s = false → jsToLower s ≠ "true" →
      jsToLower s ≠ "false" → coerceCell s = vStr s) ∧
    (∀ s : String, gsCoerceCell s = coerceCell s) ∧
    coerceCell "42" = vNum 42 ∧
    coerceCell "-3" = vNum (-3) ∧
    coerceCell "TRUE" = vBool true ∧
    coerceCell "fAlSe" = vBool false ∧
    coerceCell "abc" = vStr "abc" ∧
    coerceCell "" = vStr "" := by
  refine ⟨?_, ?_, ?_, ?_, fun s => rfl, by decide, by decide, by decide,
    by decide, by decide, by decide⟩
  · intro s h
    rw [coerceCell, if_pos h]
  · intro s h1 h2
    simp [coerceCell, h1, h2]
  · intro s h1 h2
    simp [coerceCell, h1, h2]
  · intro s h1 h2 h3
    simp [coerceCell, h1, h2, h3]

/-- Witness for C8 applying the general clauses at concrete cells. -/
theorem string_cell_coercion_C8_witness :
    coerceCell "007" = vNum (parseNumericString "007") ∧
    coerceCell "True" = vBool true ∧
    coerceCell "queue" = vStr "queue" :=
  ⟨string_cell_coercion_C8.1 "007" (by decide),
   string_cell_coercion_C8.2.1 "True" (by decide) (by decide),
   string_cell_coercion_C8.2.2.2.1 "queue" (by decide) (by decide) (by decide)⟩

/-! ## Memory loader with explicit array identity (claim C10)

`MemoryLoader.saveItems` copies its argument (`this.items = [...items]`)
and `getItems` hands out a copy (`return [...this.items]`).  To state
that the returned array is fresh, arrays are placed on an explicit heap
of numbered cells; `[...xs]` allocates a new cell. -/

/-- The heap: newest cell first; reading finds the newest binding. -/
def heapGet (h : List (Nat × List JValue)) (r : Nat) : Option (List JValue) :=
  (h.find? (fun p => p.1 == r)).map (·.2)

/-- Writing a cell shadows older bindings. -/
def heapSet (h : List (Nat × List JValue)) (r : Nat) (v : List JValue) :
    List (Nat × List JValue) :=
  (r, v) :: h

/-- `MemoryLoader` state with explicit array identity: the reference the
loader's `items` field holds, the heap, and the next fresh address. -/
structure MemHeap where
  itemsRef : Nat
  heap : List (Nat × List JValue)
  next : Nat

/-- `MemoryLoader.saveItems`: `this.items = [...items]` — allocate a
fresh cell holding a copy of the argument and repoint `items`. -/
def memHeapSaveItems (xs : List JValue) (s : MemHeap) : MemHeap :=
  { itemsRef := s.next, heap := heapSet s.heap s.next xs, next := s.next + 1 }

/-- `MemoryLoader.getItems`: `return [...this.items]` — allocate a fresh
cell holding a copy of the current items and return its reference. -/
def memHeapGetItems (s : MemHeap) : Nat × MemHeap :=
  (s.next,
   { s with
     heap := heapSet s.heap s.next ((heapGet s.heap s.itemsRef).getD []),
     next := s.next + 1 })

/-- C10: `MemoryLoader.saveItems(xs)` followed by `getItems()` returns a
list value-equal to `xs`, and the returned array is a fresh copy: its
reference differs from the loader's internal one, and overwriting the
returned array leaves the loader's internal list untouched. -/
theorem memory_roundtrip_fresh_C10 (xs : List JValue) (s : MemHeap) :
    heapGet (memHeapGetItems (memHeapSaveItems xs s)).2.heap
        (memHeapGetItems (memHeapSaveItems xs s)).1 = some xs ∧
    (memHeapGetItems (memHeapSaveItems xs s)).1 ≠
      (memHeapGetItems (memHeapSaveItems xs s)).2.itemsRef ∧
    (∀ ys : List JValue,
      heapGet (heapSet (memHeapGetItems (memHeapSaveItems xs s)).2.heap
          (memHeapGetItems (memHeapSaveItems xs s)).1 ys)
        (memHeapGetItems (memHeapSaveItems xs s)).2.itemsRef = some xs) := by
  refine ⟨?_, by simp [memHeapGetItems, memHeapSaveItems], ?_⟩
  · show heapGet (heapSet (heapSet s.heap s.next xs) (s.next + 1)
        ((heapGet (heapSet s.heap s.next xs) s.next).getD [])) (s.next + 1) = some xs
    rw [show heapGet (heapSet s.heap s.next xs) s.next = some xs from by
      simp [heapGet, heapSet, List.find?_cons_of_pos]]
    simp [heapGet, heapSet, List.find?_cons_of_pos]
  · intro ys
    show heapGet (heapSet (heapSet (heapSet s.heap s.next xs) (s.next + 1)
        ((heapGet (heapSet s.heap s.next xs) s.next).getD [])) (s.next + 1) ys)
      s.next = some xs
    rw [heapGet, heapSet, List.find?_cons_of_neg _ (by simp),
      heapSet, List.find?_cons_of_neg _ (by simp),
      heapSet, List.find?_cons_of_pos _ (by simp)]
    rfl
